import Mathlib

/-!
Shallow embedding of the role-scoped CRUD backend (users + projects apps)
for verification of its authorization and audit-logging core.

The definitions mirror the Python source:
- `src/users/models.py` (User model, roles),
- `src/projects/models.py` (Project, AuditLog),
- `src/projects/signals.py` (pre_save / post_save / post_delete audit handlers,
  module-level `_original_state` dict),
- `src/projects/views.py` (ProjectViewSet.get_queryset and CRUD hooks),
- `src/projects/serializers.py` (ProjectSerializer),
- `src/users/permissions.py` (CanCreateUser),
- `src/users/serializers.py` (UserCreateSerializer, RegisterSerializer).

Django machine integers, timestamps and SQL plumbing are out of scope; the
database is a list of rows, the audit table an append-only list, and the
module-level signal cache an explicit association list threaded through
each operation.
-/

/-- Role choices of the custom User model (users/models.py, User.Role). -/
inductive Role
  | superAdmin
  | countryAdmin
  | countryMember
deriving DecidableEq

/-- An authenticated user row (users/models.py). Only the fields the
authorization and audit core reads are kept. -/
structure User where
  username : String
  email : String
  role : Role
  country : String
deriving DecidableEq

/-- The request identity: Django hands views either an `AnonymousUser`
(`is_authenticated = False`, and none of the custom role methods exist on it)
or an authenticated custom `User`. -/
inductive Identity
  | anonymous
  | auth (u : User)
deriving DecidableEq

/-- `user.is_authenticated`: false for AnonymousUser, always true for a
custom User instance. -/
def Identity.isAuthenticated : Identity → Bool
  | .anonymous => false
  | .auth _ => true

/-- Errors surfaced by the embedded request handlers. `attributeError`
models a Python AttributeError escaping; `notFound` models Http404;
`denied` models a DRF PermissionDenied. -/
inductive Err
  | attributeError
  | notFound
  | denied
deriving DecidableEq

/-- Attribute access `user.is_super_admin()`. On AnonymousUser the method
does not exist, so Python raises AttributeError; on a custom User it is
`self.is_authenticated and self.role == Role.SUPER_ADMIN` and
`is_authenticated` is always true for a saved custom user. -/
def isSuperAdminAttr : Identity → Except Err Bool
  | .anonymous => .error .attributeError
  | .auth u => .ok (u.role == Role.superAdmin)

/-- The country attribute read off the identity once it is known to be
authenticated (`user.country`). -/
def Identity.countryAttr : Identity → String
  | .anonymous => ""
  | .auth u => u.country

/-- The user object carried by the identity, used as `_current_user`. -/
def Identity.userObj : Identity → Option User
  | .anonymous => none
  | .auth u => some u

/-- A Project row (projects/models.py). `pk` is `none` before the first
save; `status` and `country` are stored as their string values, as the
signal handlers compare them. -/
structure Project where
  pk : Option Nat
  title : String
  description : String
  status : String
  country : String
  createdBy : Option User
deriving DecidableEq

/-- The four Project fields tracked by the audit diff
(signals.py line 57: `for field in ["title", "description", "status", "country"]`). -/
inductive TrackedField
  | title
  | description
  | status
  | country
deriving DecidableEq

/-- The iteration order of the tracked-field loop in signals.py. -/
def trackedFields : List TrackedField :=
  [.title, .description, .status, .country]

/-- The dict stored in `_original_state[pk]` by `store_original_state`:
the four tracked field values of the row as read from the database. -/
structure TrackedState where
  title : String
  description : String
  status : String
  country : String
deriving DecidableEq

/-- Read one tracked field off a tracked-state dict. -/
def TrackedState.get : TrackedState → TrackedField → String
  | s, .title => s.title
  | s, .description => s.description
  | s, .status => s.status
  | s, .country => s.country

/-- Overwrite one tracked field of a tracked-state dict. -/
def TrackedState.setF : TrackedState → TrackedField → String → TrackedState
  | s, .title, v => { s with title := v }
  | s, .description, v => { s with description := v }
  | s, .status, v => { s with status := v }
  | s, .country, v => { s with country := v }

/-- The JSON key used for a tracked field in the `changes` dict. -/
def TrackedField.name : TrackedField → String
  | .title => "title"
  | .description => "description"
  | .status => "status"
  | .country => "country"

/-- The tracked-field projection of a Project row. -/
def Project.tracked (p : Project) : TrackedState :=
  ⟨p.title, p.description, p.status, p.country⟩

/-- A value of the JSON `changes` dict of an AuditLog row: the shapes the
signal handlers actually write (a raw string, JSON null, a boolean, or an
update pair with keys old and new, where old may be null when the original
dict was missing). -/
inductive ChangeVal
  | str (s : String)
  | null
  | bool (b : Bool)
  | oldNew (o : Option String) (n : String)
deriving DecidableEq

/-- Audit action choices (projects/constants.py, AuditActionType). -/
inductive AuditActionType
  | create
  | update
  | delete
deriving DecidableEq

/-- An AuditLog row (projects/models.py). `changes` is the JSON dict as an
association list in insertion order; `objectId` is `instance.pk`. -/
structure AuditLog where
  user : Option User
  actionType : AuditActionType
  modelName : String
  objectId : Option Nat
  changes : List (String × ChangeVal)
deriving DecidableEq

/-- The module-level `_original_state` dict of signals.py, keyed by project pk. -/
abbrev OrigCache := List (Nat × TrackedState)

/-- Dict lookup `_original_state.get(k)`. -/
def cacheGet (c : OrigCache) (k : Nat) : Option TrackedState :=
  match c.find? (fun e => e.1 == k) with
  | some e => some e.2
  | none => none

/-- Dict assignment `_original_state[k] = v` (overwrites any prior entry). -/
def cacheSet (c : OrigCache) (k : Nat) (v : TrackedState) : OrigCache :=
  (k, v) :: c.filter (fun e => e.1 ≠ k)

/-- Dict removal `del _original_state[k]` (no-op when the key is absent,
matching the guarded `if pk in _original_state` in signals.py). -/
def cacheDel (c : OrigCache) (k : Nat) : OrigCache :=
  c.filter (fun e => e.1 ≠ k)

/-- The project table: `Project.objects`. -/
def dbGet (db : List Project) (k : Nat) : Option Project :=
  db.find? (fun p => p.pk == some k)

/-- SQL UPDATE of the row whose pk matches the given instance. -/
def dbUpdate (db : List Project) (inst : Project) : List Project :=
  db.map (fun q => if q.pk == inst.pk then inst else q)

/-- Next auto-increment pk for an INSERT. -/
def freshPk (db : List Project) : Nat :=
  (db.foldl (fun m p => max m (p.pk.getD 0)) 0) + 1

/-- Python truthiness of the pk (None and 0 are falsy). -/
def truthyPk : Option Nat → Bool
  | none => false
  | some n => n != 0

/-- Python `user or created_by`: the left operand when it is a
(truthy) user object, otherwise the right operand. -/
def pyOr (u v : Option User) : Option User :=
  match u with
  | some x => some x
  | none => v

/-- Process-wide state threaded through the embedded operations: the
project table, the module-level `_original_state` dict, and the append-only
audit table. -/
structure SysState where
  db : List Project
  cache : OrigCache
  logs : List AuditLog
deriving DecidableEq

/-- pre_save handler `store_original_state` (signals.py lines 11 to 26):
when the inst has a truthy pk and a row with that pk exists, store the
four tracked fields of the row in the module-level `_original_state` dict; on
`Project.DoesNotExist` pass. -/
def store_original_state (db : List Project) (cache : OrigCache) (inst : Project) : OrigCache :=
  if truthyPk inst.pk then
    match inst.pk with
    | some k =>
      match dbGet db k with
      | some original => cacheSet cache k original.tracked
      | none => cache
    | none => cache
  else cache

/-- One entry of the update diff loop (signals.py lines 57 to 61):
`old_value = original.get(field)`, `new_value = getattr(inst, field)`,
included when they differ. `original` is `none` when
the original dict returned the empty dict. -/
def changeFor (original : Option TrackedState) (current : TrackedState) (f : TrackedField) :
    Option (String × ChangeVal) :=
  let o := original.map (fun s => s.get f)
  let n := current.get f
  if o ≠ some n then some (f.name, ChangeVal.oldNew o n) else none

/-- The update diff `changes` dict built by the tracked-field loop. -/
def computeDiff (original : Option TrackedState) (current : TrackedState) :
    List (String × ChangeVal) :=
  trackedFields.filterMap (changeFor original current)

/-- The `changes` dict written on the create path (signals.py lines 43 to 51). -/
def createChanges (inst : Project) : List (String × ChangeVal) :=
  [ ("title", ChangeVal.str inst.title)
  , ("description", ChangeVal.str inst.description)
  , ("status", ChangeVal.str inst.status)
  , ("country", ChangeVal.str inst.country)
  , ("created_by",
      match inst.createdBy with
      | some u => ChangeVal.str u.username
      | none => ChangeVal.null) ]

/-- post_save handler `log_project_create_update` (signals.py lines 29 to 71).
`currentUser` is `getattr(inst, "_current_user", None)`. On create it
writes one Create entry with a full snapshot; otherwise it diffs the
the row against the stored original dict, writes one
Update entry only when the diff is non-empty, and deletes the cache entry. -/
def log_project_create_update (σ : SysState) (inst : Project) (created : Bool)
    (currentUser : Option User) : SysState :=
  if created then
    { σ with logs := σ.logs ++
        [ { user := pyOr currentUser inst.createdBy
          , actionType := .create
          , modelName := "Project"
          , objectId := inst.pk
          , changes := createChanges inst } ] }
  else
    let original : Option TrackedState :=
      match inst.pk with
      | some k => cacheGet σ.cache k
      | none => none
    let changes := computeDiff original inst.tracked
    let σ1 :=
      if changes.isEmpty then σ
      else
        { σ with logs := σ.logs ++
            [ { user := pyOr currentUser inst.createdBy
              , actionType := .update
              , modelName := "Project"
              , objectId := inst.pk
              , changes := changes } ] }
    match inst.pk with
    | some k => { σ1 with cache := cacheDel σ1.cache k }
    | none => σ1

/-- post_delete handler `log_project_delete` (signals.py lines 74 to 93):
one Delete entry whose actor is `_current_user` alone (no fallback) and
whose `changes` dict lists title, description, status and `deleted: true`. -/
def log_project_delete (inst : Project) (currentUser : Option User) : AuditLog :=
  { user := currentUser
  , actionType := .delete
  , modelName := "Project"
  , objectId := inst.pk
  , changes :=
      [ ("title", ChangeVal.str inst.title)
      , ("description", ChangeVal.str inst.description)
      , ("status", ChangeVal.str inst.status)
      , ("deleted", ChangeVal.bool true) ] }

/-- `Project.save()` as Django runs it: fire pre_save, INSERT or UPDATE the
row (`created` is whether an INSERT happened; a missing pk receives the
next auto-increment value), then fire post_save. `currentUser` is the
`_current_user` attribute set by the view layer, if any. -/
def saveProject (σ : SysState) (inst : Project) (currentUser : Option User) : SysState :=
  let cache1 := store_original_state σ.db σ.cache inst
  match inst.pk with
  | some k =>
    if (dbGet σ.db k).isSome then
      log_project_create_update
        { σ with db := dbUpdate σ.db inst, cache := cache1 } inst false currentUser
    else
      log_project_create_update
        { σ with db := σ.db ++ [inst], cache := cache1 } inst true currentUser
  | none =>
    let inst := { inst with pk := some (freshPk σ.db) }
    log_project_create_update
      { σ with db := σ.db ++ [inst], cache := cache1 } inst true currentUser

/-- the delete call: remove the row and fire post_delete with the
inst (whose pk is still set during signal dispatch). -/
def deleteProject (σ : SysState) (inst : Project) (currentUser : Option User) : SysState :=
  { db := σ.db.filter (fun q => q.pk ≠ inst.pk)
  , cache := σ.cache
  , logs := σ.logs ++ [log_project_delete inst currentUser] }

/-- ProjectViewSet.get_queryset (projects/views.py lines 18 to 27). The
DEBUG print on lines 20 to 22 evaluates `user.is_super_admin()` in its
f-string before the authentication guard runs; only then do the guard, the
super-admin branch and the country filter apply. An AttributeError from
the print escapes the method. -/
def ProjectViewSet_get_queryset (user : Identity) (db : List Project) :
    Except Err (List Project) :=
  match isSuperAdminAttr user with
  | .error e => .error e
  | .ok isSuper =>
    if ¬ user.isAuthenticated then .ok []
    else if isSuper then .ok db
    else .ok (db.filter (fun p => p.country == user.countryAttr))

/-- DRF generic object lookup used by retrieve, update and destroy on a
ModelViewSet: `get_object` filters `get_queryset()` by the pk from the URL
and raises Http404 when no such row is visible. The view sets no
object-level permission hook, so no Denied outcome exists on this path. -/
def ProjectViewSet_get_object (user : Identity) (db : List Project) (k : Nat) :
    Except Err Project :=
  match ProjectViewSet_get_queryset user db with
  | .error e => .error e
  | .ok qs =>
    match qs.find? (fun p => p.pk == some k) with
    | some p => .ok p
    | none => .error .notFound

/-- Writable serializer input for a Project (projects/serializers.py):
`country`, `created_by`, timestamps and id are in `read_only_fields`, so a
caller-supplied `country` key never enters `validated_data`; it is carried
here only to state that it is ignored. -/
structure ProjectInput where
  title : String
  description : String
  status : String
  country : Option String
deriving DecidableEq

/-- ProjectSerializer.create (projects/serializers.py lines 29 to 45):
`validated_data` holds only writable fields; for an authenticated request
user, `setdefault` fills `created_by` with the user and `country` with
`getattr(user, "country", "")`; unauthenticated, both stay unset and the
model fills `country` with the CharField default (empty string). -/
def ProjectSerializer_create (requestUser : Identity) (input : ProjectInput) : Project :=
  match requestUser with
  | .auth u =>
    { pk := none, title := input.title, description := input.description
    , status := input.status, country := u.country, createdBy := some u }
  | .anonymous =>
    { pk := none, title := input.title, description := input.description
    , status := input.status, country := "", createdBy := none }

/-- Default ModelSerializer.update applied to ProjectSerializer: each
writable validated field is assigned onto the row; `country` and
`created_by` are read-only, hence never present in `validated_data` and
never touched. -/
def ProjectSerializer_update (inst : Project) (input : ProjectInput) : Project :=
  { inst with
    title := input.title
    description := input.description
    status := input.status }

/-- The full update request on ProjectViewSet: resolve the object through
`get_object`, apply the serializer update, then save with
`_current_user = request.user` (perform_update). -/
def ProjectViewSet_update (user : Identity) (σ : SysState) (k : Nat)
    (input : ProjectInput) : Except Err SysState :=
  match ProjectViewSet_get_object user σ.db k with
  | .error e => .error e
  | .ok p => .ok (saveProject σ (ProjectSerializer_update p input) user.userObj)

/-- The full destroy request on ProjectViewSet: resolve the object through
`get_object`, set `_current_user`, then delete (perform_destroy). -/
def ProjectViewSet_destroy (user : Identity) (σ : SysState) (k : Nat) :
    Except Err SysState :=
  match ProjectViewSet_get_object user σ.db k with
  | .error e => .error e
  | .ok p => .ok (deleteProject σ p user.userObj)

/-- Outcome of a create-user request through UserViewSet. DRF checks the
`CanCreateUser` permission before the view body runs; serializer
validation failures surface afterwards as 400 responses. -/
inductive CreateUserOutcome
  | permissionDenied
  | validationFailed
  | created (role : Role) (country : String)
deriving DecidableEq

/-- CanCreateUser.has_permission (users/permissions.py lines 41 to 57) for
a POST request whose payload carries `role` and `country` keys (either may
be absent): deny unauthenticated users and plain members; allow any super
admin; allow a country admin only when `request.data.get("country")`
equals the admin country. -/
def CanCreateUser_has_permission (actor : Identity) (dataCountry : Option String) : Bool :=
  match actor with
  | .anonymous => false
  | .auth u =>
    if ¬ (u.role == Role.superAdmin || u.role == Role.countryAdmin) then false
    else if u.role == Role.superAdmin then true
    else dataCountry == some u.country

/-- UserCreateSerializer.__can_create_user_type (users/serializers.py
lines 48 to 55): a super admin may create anything; a country admin only a
COUNTRY_MEMBER in the admin country (`str(role) == str(COUNTRY_MEMBER)`,
false when the role key is absent); everyone else nothing. -/
def can_create_user_type (creator : Identity) (role : Option Role) (country : Option String) : Bool :=
  match creator with
  | .anonymous => false
  | .auth u =>
    if u.role == Role.superAdmin then true
    else if u.role == Role.countryAdmin then
      role == some Role.countryMember && country == some u.country
    else false

/-- DRF field validation of the `country` serializer field on
UserCreateSerializer: it maps from the model CharField(max_length=100)
with no default and blank not allowed, so `is_valid()` rejects a payload
whose country key is absent or blank before `validate()` runs. The `role`
field has a model default, hence is not required. -/
def country_field_valid (country : Option String) : Bool :=
  match country with
  | some c => c ≠ ""
  | none => false

/-- The create-user request pipeline (users/views.py create +
users/serializers.py UserCreateSerializer): the CanCreateUser permission
check runs first in DRF dispatch; then `is_valid()` performs field
validation (the required non-blank country) followed by `validate()`
(password confirmation, the authenticated-creator guard, the role/country
rule); on success `create_user` stores the requested role and country
(role defaults to COUNTRY_MEMBER when the key is absent). Validations
orthogonal to the role/country policy (username and email well-formedness,
deployment password-content policy) are out of scope per the spec
non-goals and not modelled. -/
def createUserRequest (actor : Identity) (role : Option Role) (country : Option String)
    (password passwordConfirm : String) : CreateUserOutcome :=
  if ¬ CanCreateUser_has_permission actor country then .permissionDenied
  else if ¬ country_field_valid country then .validationFailed
  else if password ≠ passwordConfirm then .validationFailed
  else if ¬ actor.isAuthenticated then .validationFailed
  else if ¬ can_create_user_type actor role country then .validationFailed
  else .created (role.getD Role.countryMember) (country.getD "")

/-- Outcome of the public registration endpoint. -/
inductive RegisterOutcome
  | validationFailed
  | created (u : User)
deriving DecidableEq

/-- Raw payload of a registration request. The serializer fields are
username, email, password, password_confirm and country; a `role` key in
the payload is not a serializer field and is dropped on input, so it is
carried here only to state that it is ignored. -/
structure RegisterInput where
  username : String
  email : String
  password : String
  passwordConfirm : String
  country : String
  role : Option Role
deriving DecidableEq

/-- RegisterSerializer.validate + create (users/serializers.py lines 104
to 129): reject mismatched passwords, then force
`validated_data["role"] = COUNTRY_MEMBER` and create the user. -/
def registerRequest (input : RegisterInput) : RegisterOutcome :=
  if input.password ≠ input.passwordConfirm then .validationFailed
  else .created
    { username := input.username, email := input.email
    , role := Role.countryMember, country := input.country }

/-- Fixture: a country member in USA. -/
def alice : User :=
  { username := "alice", email := "alice@example.com"
  , role := Role.countryMember, country := "USA" }

/-- Fixture: a country admin in USA. -/
def adminUSA : User :=
  { username := "uadmin", email := "admin@example.com"
  , role := Role.countryAdmin, country := "USA" }

/-- Fixture: a super admin. -/
def rootAdmin : User :=
  { username := "root", email := "root@example.com"
  , role := Role.superAdmin, country := "" }

/-- Fixture: a USA project created by alice, pk 1. -/
def p1 : Project :=
  { pk := some 1, title := "Alpha", description := "First"
  , status := "draft", country := "USA", createdBy := some alice }

/-- Fixture: a Canada project, pk 2. -/
def p2 : Project :=
  { pk := some 2, title := "Beta", description := "Second"
  , status := "active", country := "Canada", createdBy := none }

/-- C1: listing Projects. The role-scoped branches hold as specified: a
super admin sees every row and a country-scoped user sees exactly the rows
of their own country. The unauthenticated branch contradicts the claim:
the DEBUG print evaluates `user.is_super_admin()` before the
authentication guard, and AnonymousUser has no such method, so the call
raises AttributeError instead of returning the empty queryset. -/
theorem projects_list_visibility_and_anonymous_raises :
    (∀ db, ProjectViewSet_get_queryset Identity.anonymous db =
      Except.error Err.attributeError) ∧
    (∀ db (u : User), ProjectViewSet_get_queryset (Identity.auth u) db =
      Except.ok (if u.role = Role.superAdmin then db
                 else db.filter (fun p => p.country == u.country))) := by
  constructor
  · intro db; rfl
  · intro db u
    by_cases h : u.role = Role.superAdmin <;>
      simp [ProjectViewSet_get_queryset, isSuperAdminAttr, Identity.isAuthenticated,
        Identity.countryAttr, h]

/-- C5 counterexample: the Delete audit entry is not the full snapshot of
every tracked field: deleting the fixture project records title,
description and status but no `country` key, although the row has country
USA. -/
theorem delete_snapshot_omits_country :
    (log_project_delete p1 (some alice)).changes.lookup "country" = none ∧
    p1.country = "USA" ∧
    (log_project_delete p1 (some alice)).changes.lookup "title" =
      some (ChangeVal.str "Alpha") := by
  refine ⟨rfl, rfl, rfl⟩

/-- C5 amended: every delete writes exactly one Delete audit entry whose
changes dict is the pre-delete title, description and status together with
deleted true; the tracked field country is not part of the snapshot. -/
theorem delete_audit_entry_shape (σ : SysState) (p : Project) (u : Option User) :
    (deleteProject σ p u).logs = σ.logs ++
      [ { user := u, actionType := AuditActionType.delete
        , modelName := "Project", objectId := p.pk
        , changes :=
            [ ("title", ChangeVal.str p.title)
            , ("description", ChangeVal.str p.description)
            , ("status", ChangeVal.str p.status)
            , ("deleted", ChangeVal.bool true) ] } ] := rfl

/-- C7: a Project created through ProjectSerializer stores the creating
own country of the creating identity whatever country the caller supplied (the field is
read-only and then forced from the user), and a serializer update never
changes the stored country. -/
theorem project_country_forced_from_creator :
    (∀ (u : User) (i : ProjectInput),
      (ProjectSerializer_create (Identity.auth u) i).country = u.country) ∧
    (∀ (p : Project) (i : ProjectInput),
      (ProjectSerializer_update p i).country = p.country) :=
  ⟨fun _ _ => rfl, fun _ _ => rfl⟩

/-- C10: every user created through the public registration endpoint has
role COUNTRY_MEMBER, whatever role value the request payload carried. -/
theorem register_forces_country_member (input : RegisterInput) (u : User)
    (h : registerRequest input = RegisterOutcome.created u) :
    u.role = Role.countryMember := by
  unfold registerRequest at h
  by_cases hp : input.password = input.passwordConfirm
  · simp [hp] at h
    rw [← h]
  · simp [hp] at h

/-- Fixture: a registration payload that even asks for the SUPER_ADMIN role. -/
def regInput0 : RegisterInput :=
  { username := "neo", email := "neo@example.com", password := "pw12345"
  , passwordConfirm := "pw12345", country := "USA", role := some Role.superAdmin }

/-- Fixture: the account the registration endpoint creates for `regInput0`. -/
def regUser0 : User :=
  { username := "neo", email := "neo@example.com"
  , role := Role.countryMember, country := "USA" }

/-- Witness for C10 at a concrete payload requesting SUPER_ADMIN. -/
theorem register_forces_country_member_witness :
    registerRequest regInput0 = RegisterOutcome.created regUser0 ∧
    regUser0.role = Role.countryMember :=
  ⟨rfl, register_forces_country_member regInput0 regUser0 rfl⟩

/-- Extract the new value recorded for a tracked field from a changes dict. -/
def lookupNew (changes : List (String × ChangeVal)) (f : TrackedField) : Option String :=
  match changes.lookup f.name with
  | some (ChangeVal.oldNew _ n) => some n
  | _ => none

/-- Replay a changes dict onto a before-state: every field with a recorded
change takes its new value, every other field is kept. -/
def applyDiff (b : TrackedState) (changes : List (String × ChangeVal)) : TrackedState :=
  trackedFields.foldl
    (fun st f =>
      match lookupNew changes f with
      | some v => st.setF f v
      | none => st) b

/-- The diff against a present original contains a field key exactly when
the before and after values of that field differ. -/
lemma computeDiff_lookup_isSome (b a : TrackedState) (f : TrackedField) :
    ((computeDiff (some b) a).lookup f.name ≠ none) ↔ b.get f ≠ a.get f := by
  by_cases h1 : b.title = a.title <;>
    by_cases h2 : b.description = a.description <;>
      by_cases h3 : b.status = a.status <;>
        by_cases h4 : b.country = a.country <;>
          cases f <;>
            simp [computeDiff, trackedFields, changeFor, TrackedState.get,
              TrackedField.name, List.lookup, h1, h2, h3, h4]

/-- The diff against a present original is empty exactly when before and
after agree on all tracked fields. -/
lemma computeDiff_eq_nil_iff (b a : TrackedState) :
    computeDiff (some b) a = [] ↔ b = a := by
  obtain ⟨b1, b2, b3, b4⟩ := b
  obtain ⟨a1, a2, a3, a4⟩ := a
  by_cases h1 : b1 = a1 <;>
    by_cases h2 : b2 = a2 <;>
      by_cases h3 : b3 = a3 <;>
        by_cases h4 : b4 = a4 <;>
          simp [computeDiff, trackedFields, changeFor, TrackedState.get,
            TrackedState.mk.injEq, h1, h2, h3, h4]

/-- Replaying the diff of a present original onto the before-state yields
the after-state. -/
lemma applyDiff_computeDiff (b a : TrackedState) :
    applyDiff b (computeDiff (some b) a) = a := by
  obtain ⟨b1, b2, b3, b4⟩ := b
  obtain ⟨a1, a2, a3, a4⟩ := a
  by_cases h1 : b1 = a1 <;>
    by_cases h2 : b2 = a2 <;>
      by_cases h3 : b3 = a3 <;>
        by_cases h4 : b4 = a4 <;>
          simp [computeDiff, trackedFields, changeFor, TrackedState.get,
            applyDiff, lookupNew, TrackedField.name, List.lookup,
            TrackedState.setF, h1, h2, h3, h4]

/-- C8: the update diff law. A field key appears in
`diff(before, after)` exactly when the field values differ; the diff is
empty exactly when before and after agree on all tracked fields; and
replaying the recorded changes onto the before-state reproduces the
after-state. -/
theorem update_diff_law (b a : TrackedState) :
    (∀ f : TrackedField,
      ((computeDiff (some b) a).lookup f.name ≠ none) ↔ b.get f ≠ a.get f) ∧
    (computeDiff (some b) a = [] ↔ b = a) ∧
    applyDiff b (computeDiff (some b) a) = a :=
  ⟨computeDiff_lookup_isSome b a, computeDiff_eq_nil_iff b a, applyDiff_computeDiff b a⟩

/-- Witness for C8 at concrete states differing in title and status only. -/
theorem update_diff_law_witness :
    ((computeDiff (some p1.tracked) { p1.tracked with title := "Alpha v2" }) = [] ↔
      p1.tracked = { p1.tracked with title := "Alpha v2" }) ∧
    applyDiff p1.tracked (computeDiff (some p1.tracked) { p1.tracked with title := "Alpha v2" }) =
      { p1.tracked with title := "Alpha v2" } :=
  ⟨(update_diff_law p1.tracked { p1.tracked with title := "Alpha v2" }).2.1,
   (update_diff_law p1.tracked { p1.tracked with title := "Alpha v2" }).2.2⟩

/-- Looking up the key just assigned in the signal cache returns the
assigned original state. -/
lemma cacheGet_cacheSet (c : OrigCache) (k : Nat) (v : TrackedState) :
    cacheGet (cacheSet c k v) k = some v := by
  simp [cacheGet, cacheSet, List.find?]

/-- Reduction of the audit log column of `saveProject` on the committed
update path: when the instance carries the truthy pk of an existing row,
the flow stores the tracked state of that row, diffs the instance against it,
and appends one Update entry exactly when the diff is non-empty. -/
lemma saveProject_update_logs (σ : SysState) (p before : Project) (k : Nat) (u : Option User)
    (hk : k ≠ 0) (hpk : p.pk = some k) (hdb : dbGet σ.db k = some before) :
    (saveProject σ p u).logs =
      if computeDiff (some before.tracked) p.tracked = [] then σ.logs
      else σ.logs ++
        [ { user := pyOr u p.createdBy, actionType := AuditActionType.update
          , modelName := "Project", objectId := some k
          , changes := computeDiff (some before.tracked) p.tracked } ] := by
  have hcg := cacheGet_cacheSet σ.cache k before.tracked
  simp only [saveProject, hpk, store_original_state, truthyPk, hdb, Option.isSome_some,
    if_true, log_project_create_update, Bool.false_eq_true, if_false, hcg]
  by_cases hnil : computeDiff (some before.tracked) p.tracked = [] <;>
    simp [hcg, hnil, List.isEmpty_iff, bne_iff_ne, hk]

/-- C2: a committed update of an existing Project row writes exactly one
Update audit entry when at least one tracked field differs between the
stored before-state and the saved instance, and writes nothing at all
(in particular no empty-changes entry) when no tracked field differs. -/
theorem update_audit_completeness (σ : SysState) (p before : Project) (k : Nat)
    (u : Option User) (hk : k ≠ 0) (hpk : p.pk = some k)
    (hdb : dbGet σ.db k = some before) :
    (before.tracked ≠ p.tracked →
      (saveProject σ p u).logs = σ.logs ++
        [ { user := pyOr u p.createdBy, actionType := AuditActionType.update
          , modelName := "Project", objectId := some k
          , changes := computeDiff (some before.tracked) p.tracked } ] ∧
      computeDiff (some before.tracked) p.tracked ≠ []) ∧
    (before.tracked = p.tracked → (saveProject σ p u).logs = σ.logs) := by
  have hred := saveProject_update_logs σ p before k u hk hpk hdb
  constructor
  · intro hne
    have hnil : computeDiff (some before.tracked) p.tracked ≠ [] := by
      intro h
      exact hne ((computeDiff_eq_nil_iff before.tracked p.tracked).mp h)
    rw [hred, if_neg hnil]
    exact ⟨rfl, hnil⟩
  · intro heq
    have hnil : computeDiff (some before.tracked) p.tracked = [] :=
      (computeDiff_eq_nil_iff before.tracked p.tracked).mpr heq
    rw [hred, if_pos hnil]

/-- Fixture: the USA project with only its title changed, as an update
instance for pk 1. -/
def p1TitleChanged : Project := { p1 with title := "Alpha v2" }

/-- Fixture: initial system state holding only `p1`. -/
def sys0 : SysState := { db := [p1], cache := [], logs := [] }

/-- Witness for C2 at a concrete changed update and a concrete no-change
update of the same row. -/
theorem update_audit_completeness_witness :
    ((p1.tracked ≠ p1TitleChanged.tracked →
      (saveProject sys0 p1TitleChanged (some alice)).logs = sys0.logs ++
        [ { user := pyOr (some alice) p1TitleChanged.createdBy
          , actionType := AuditActionType.update
          , modelName := "Project", objectId := some 1
          , changes := computeDiff (some p1.tracked) p1TitleChanged.tracked } ] ∧
      computeDiff (some p1.tracked) p1TitleChanged.tracked ≠ []) ∧
     (p1.tracked = p1TitleChanged.tracked →
      (saveProject sys0 p1TitleChanged (some alice)).logs = sys0.logs)) ∧
    ((p1.tracked ≠ p1.tracked →
      (saveProject sys0 p1 (some alice)).logs = sys0.logs ++
        [ { user := pyOr (some alice) p1.createdBy
          , actionType := AuditActionType.update
          , modelName := "Project", objectId := some 1
          , changes := computeDiff (some p1.tracked) p1.tracked } ] ∧
      computeDiff (some p1.tracked) p1.tracked ≠ []) ∧
     (p1.tracked = p1.tracked →
      (saveProject sys0 p1 (some alice)).logs = sys0.logs)) :=
  ⟨update_audit_completeness sys0 p1TitleChanged p1 1 (some alice)
      (by decide) rfl rfl,
   update_audit_completeness sys0 p1 p1 1 (some alice)
      (by decide) rfl rfl⟩

/-- Reduction of the audit log column of `saveProject` on the create path
(no pk yet): one Create entry is appended whose actor is
`_current_user or created_by`. -/
lemma saveProject_create_logs (σ : SysState) (p : Project) (u : Option User)
    (hpk : p.pk = none) :
    (saveProject σ p u).logs = σ.logs ++
      [ { user := pyOr u p.createdBy, actionType := AuditActionType.create
        , modelName := "Project", objectId := some (freshPk σ.db)
        , changes := createChanges { p with pk := some (freshPk σ.db) } } ] := by
  simp [saveProject, hpk, log_project_create_update]

/-- C4 counterexample: on the update path the actor also falls back to the
record creator. Saving a changed row with `_current_user` unset writes an
Update entry whose actor is `created_by` (alice), not null, although the
claim allows this fallback on the create path only. -/
theorem update_actor_falls_back_to_creator :
    (saveProject sys0 p1TitleChanged none).logs =
      [ { user := some alice, actionType := AuditActionType.update
        , modelName := "Project", objectId := some 1
        , changes := [("title", ChangeVal.oldNew (some "Alpha") "Alpha v2")] } ] ∧
    some alice ≠ (none : Option User) := by
  exact ⟨rfl, by simp⟩

/-- C4 amended: on every audited mutation the recorded actor is the
performing identity when it is available; when it is unavailable the actor
falls back to the record creator on the create and update paths, while on
the delete path no fallback occurs and the actor is recorded as null. -/
theorem audit_actor_attribution :
    (∀ (σ : SysState) (p : Project) (u : Option User), p.pk = none →
      ∃ e, (saveProject σ p u).logs = σ.logs ++ [e] ∧
        e.actionType = AuditActionType.create ∧ e.user = pyOr u p.createdBy) ∧
    (∀ (σ : SysState) (p before : Project) (k : Nat) (u : Option User),
      k ≠ 0 → p.pk = some k → dbGet σ.db k = some before →
      before.tracked ≠ p.tracked →
      ∃ e, (saveProject σ p u).logs = σ.logs ++ [e] ∧
        e.actionType = AuditActionType.update ∧ e.user = pyOr u p.createdBy) ∧
    (∀ (σ : SysState) (p : Project) (u : Option User),
      ∃ e, (deleteProject σ p u).logs = σ.logs ++ [e] ∧
        e.actionType = AuditActionType.delete ∧ e.user = u) := by
  refine ⟨fun σ p u hpk => ?_, fun σ p before k u hk hpk hdb hne => ?_, fun σ p u => ?_⟩
  · exact ⟨_, saveProject_create_logs σ p u hpk, rfl, rfl⟩
  · have hred := saveProject_update_logs σ p before k u hk hpk hdb
    have hnil : computeDiff (some before.tracked) p.tracked ≠ [] := by
      intro h
      exact hne ((computeDiff_eq_nil_iff before.tracked p.tracked).mp h)
    rw [if_neg hnil] at hred
    exact ⟨_, hred, rfl, rfl⟩
  · exact ⟨log_project_delete p u, rfl, rfl, rfl⟩

/-- Witness for the amended C4 at concrete create, update and delete
mutations. -/
theorem audit_actor_attribution_witness :
    (∃ e, (saveProject sys0 { p1 with pk := none } (some alice)).logs =
        sys0.logs ++ [e] ∧
      e.actionType = AuditActionType.create ∧
      e.user = pyOr (some alice) ({ p1 with pk := none } : Project).createdBy) ∧
    (∃ e, (saveProject sys0 p1TitleChanged none).logs = sys0.logs ++ [e] ∧
      e.actionType = AuditActionType.update ∧
      e.user = pyOr none p1TitleChanged.createdBy) ∧
    (∃ e, (deleteProject sys0 p1 none).logs = sys0.logs ++ [e] ∧
      e.actionType = AuditActionType.delete ∧ e.user = none) :=
  ⟨audit_actor_attribution.1 sys0 { p1 with pk := none } (some alice) rfl,
   audit_actor_attribution.2.1 sys0 p1TitleChanged p1 1 none (by decide) rfl rfl
     (by decide),
   audit_actor_attribution.2.2 sys0 p1 none⟩

/-- C9 counterexample: the before-state is held in the module-level
`_original_state` dict keyed by pk and shared between requests, and the
sharing is observable. Request A (update of pk 1) fires pre_save, which
stores the before-state in the shared dict; a concurrent request B runs a
complete no-change save of the same row, whose post_save cleanup deletes
the shared entry; when the post_save of request A then runs, it finds no
original and records a corrupted diff listing all four fields with old
values null, although only the title changed. -/
theorem shared_cache_interleaving_corrupts_diff :
    store_original_state [p1] [] p1TitleChanged = [(1, p1.tracked)] ∧
    (saveProject { db := [p1], cache := [(1, p1.tracked)], logs := [] } p1 none).cache
      = [] ∧
    (log_project_create_update
        { db := dbUpdate [p1] p1TitleChanged, cache := [], logs := [] }
        p1TitleChanged false (some alice)).logs =
      [ { user := some alice, actionType := AuditActionType.update
        , modelName := "Project", objectId := some 1
        , changes :=
            [ ("title", ChangeVal.oldNew none "Alpha v2")
            , ("description", ChangeVal.oldNew none "First")
            , ("status", ChangeVal.oldNew none "draft")
            , ("country", ChangeVal.oldNew none "USA") ] } ] :=
  ⟨rfl, rfl, rfl⟩

/-- C9 amended: the before-state used by an update audit is not passed
through the call chain; pre_save stores it in the module-level dict keyed
by the entity pk, post_save reads whatever that shared dict holds at the
pk at that moment, and deletes the entry afterwards. -/
theorem before_state_held_in_shared_cache (σ : SysState) (p : Project) (k : Nat)
    (u : Option User) (hk : k ≠ 0) (hpk : p.pk = some k) :
    (∀ orig, dbGet σ.db k = some orig →
      store_original_state σ.db σ.cache p = cacheSet σ.cache k orig.tracked) ∧
    (log_project_create_update σ p false u).logs =
      (if computeDiff (cacheGet σ.cache k) p.tracked = [] then σ.logs
       else σ.logs ++
        [ { user := pyOr u p.createdBy, actionType := AuditActionType.update
          , modelName := "Project", objectId := some k
          , changes := computeDiff (cacheGet σ.cache k) p.tracked } ]) ∧
    (log_project_create_update σ p false u).cache = cacheDel σ.cache k := by
  refine ⟨fun orig horig => ?_, ?_, ?_⟩
  · simp [store_original_state, hpk, truthyPk, bne_iff_ne, hk, horig]
  · simp only [log_project_create_update, Bool.false_eq_true, if_false, hpk]
    by_cases hnil : computeDiff (cacheGet σ.cache k) p.tracked = [] <;>
      simp [hnil, List.isEmpty_iff]
  · simp only [log_project_create_update, Bool.false_eq_true, if_false, hpk]
    by_cases hnil : computeDiff (cacheGet σ.cache k) p.tracked = [] <;>
      simp [hnil, List.isEmpty_iff]

/-- Witness for the amended C9 at the concrete fixture state. -/
theorem before_state_held_in_shared_cache_witness :
    (∀ orig, dbGet sys0.db 1 = some orig →
      store_original_state sys0.db sys0.cache p1TitleChanged =
        cacheSet sys0.cache 1 orig.tracked) ∧
    (log_project_create_update sys0 p1TitleChanged false (some alice)).logs =
      (if computeDiff (cacheGet sys0.cache 1) p1TitleChanged.tracked = [] then sys0.logs
       else sys0.logs ++
        [ { user := pyOr (some alice) p1TitleChanged.createdBy
          , actionType := AuditActionType.update
          , modelName := "Project", objectId := some 1
          , changes := computeDiff (cacheGet sys0.cache 1) p1TitleChanged.tracked } ]) ∧
    (log_project_create_update sys0 p1TitleChanged false (some alice)).cache =
      cacheDel sys0.cache 1 :=
  before_state_held_in_shared_cache sys0 p1TitleChanged 1 (some alice) (by decide) rfl

/-- For an authenticated non-super-admin user, the Projects list query is
the country filter. -/
lemma get_queryset_scoped (db : List Project) (u : User)
    (hrole : u.role ≠ Role.superAdmin) :
    ProjectViewSet_get_queryset (Identity.auth u) db =
      Except.ok (db.filter (fun p => p.country == u.country)) := by
  simp [ProjectViewSet_get_queryset, isSuperAdminAttr, Identity.isAuthenticated,
    Identity.countryAttr, hrole]

/-- No row of a foreign-country project is found in the scoped queryset. -/
lemma scoped_find_none (db : List Project) (u : User) (p : Project) (k : Nat)
    (hpk : p.pk = some k) (hcountry : p.country ≠ u.country)
    (huniq : ∀ q ∈ db, q.pk = some k → q = p) :
    (db.filter (fun q => q.country == u.country)).find? (fun q => q.pk == some k)
      = none := by
  rw [List.find?_eq_none]
  intro q hq
  rw [List.mem_filter] at hq
  obtain ⟨hqdb, hqc⟩ := hq
  intro hqpk
  have hq_eq : q = p := huniq q hqdb (by simpa using hqpk)
  rw [hq_eq] at hqc
  exact hcountry (by simpa using hqc)

/-- C3: for a country admin or country member, reading, updating or
deleting a Project of another country fails with NotFound, the very result
a request for a nonexistent pk produces; no Denied outcome distinguishes
the two, so existence of the out-of-scope record is not leaked. -/
theorem cross_country_hidden_as_not_found (u : User) (σ : SysState) (p : Project)
    (k : Nat) (hrole : u.role ≠ Role.superAdmin) (hpk : p.pk = some k)
    (hcountry : p.country ≠ u.country)
    (huniq : ∀ q ∈ σ.db, q.pk = some k → q = p) :
    ProjectViewSet_get_object (Identity.auth u) σ.db k = Except.error Err.notFound ∧
    (∀ input, ProjectViewSet_update (Identity.auth u) σ k input =
      Except.error Err.notFound) ∧
    ProjectViewSet_destroy (Identity.auth u) σ k = Except.error Err.notFound ∧
    (∀ j, (∀ q ∈ σ.db, q.pk ≠ some j) →
      ProjectViewSet_get_object (Identity.auth u) σ.db j = Except.error Err.notFound) ∧
    ProjectViewSet_get_object (Identity.auth u) σ.db k ≠ Except.error Err.denied := by
  have hq := get_queryset_scoped σ.db u hrole
  have hfind := scoped_find_none σ.db u p k hpk hcountry huniq
  have hobj : ProjectViewSet_get_object (Identity.auth u) σ.db k =
      Except.error Err.notFound := by
    simp [ProjectViewSet_get_object, hq, hfind]
  refine ⟨hobj, fun input => ?_, ?_, fun j hj => ?_, ?_⟩
  · simp [ProjectViewSet_update, hobj]
  · simp [ProjectViewSet_destroy, hobj]
  · have hfind2 : (σ.db.filter (fun q => q.country == u.country)).find?
        (fun q => q.pk == some j) = none := by
      rw [List.find?_eq_none]
      intro q hqm
      rw [List.mem_filter] at hqm
      intro hqpk
      exact hj q hqm.1 (by simpa using hqpk)
    simp [ProjectViewSet_get_object, hq, hfind2]
  · rw [hobj]
    simp

/-- Fixture: system state holding the USA project and the Canada project. -/
def sys2 : SysState := { db := [p1, p2], cache := [], logs := [] }

/-- Witness for C3: the USA country admin asking for the Canada project
(pk 2) and for the absent pk 99 gets NotFound in both cases. -/
theorem cross_country_hidden_as_not_found_witness :
    (ProjectViewSet_get_object (Identity.auth adminUSA) sys2.db 2 =
      Except.error Err.notFound ∧
    (∀ input, ProjectViewSet_update (Identity.auth adminUSA) sys2 2 input =
      Except.error Err.notFound) ∧
    ProjectViewSet_destroy (Identity.auth adminUSA) sys2 2 =
      Except.error Err.notFound ∧
    (∀ j, (∀ q ∈ sys2.db, q.pk ≠ some j) →
      ProjectViewSet_get_object (Identity.auth adminUSA) sys2.db j =
        Except.error Err.notFound) ∧
    ProjectViewSet_get_object (Identity.auth adminUSA) sys2.db 2 ≠
      Except.error Err.denied) ∧
    (∀ q ∈ sys2.db, q.pk ≠ some 99) :=
  ⟨cross_country_hidden_as_not_found adminUSA sys2 p2 2 (by decide) rfl
      (by decide) (by decide),
   by decide⟩

/-- C6 counterexample: a USA country admin requesting a COUNTRY_MEMBER
account for Canada is rejected, but by the permission layer
(PermissionDenied), not as the validation failure the claim states. -/
theorem cross_country_user_creation_is_permission_denied :
    createUserRequest (Identity.auth adminUSA) (some Role.countryMember)
      (some "Canada") "pw12345" "pw12345" = CreateUserOutcome.permissionDenied ∧
    CreateUserOutcome.permissionDenied ≠ CreateUserOutcome.validationFailed :=
  ⟨rfl, by simp⟩

/-- C6 amended: a country admin succeeds exactly on (COUNTRY_MEMBER,
own non-blank country); a request whose country differs from the admin
country is rejected by the permission layer as a permission denial, and a
same-country request for any other role is rejected as a validation
failure. A super admin may create any role with any supplied non-blank
country, while an absent or blank country is a validation failure (the
required country field); a country member and an unauthenticated caller
are always rejected by the permission layer. -/
theorem user_creation_policy (u : User) (role : Option Role)
    (country : Option String) (pw : String) :
    (u.role = Role.countryAdmin →
      ((role = some Role.countryMember ∧ country = some u.country ∧
          u.country ≠ "") →
        createUserRequest (Identity.auth u) role country pw pw =
          CreateUserOutcome.created Role.countryMember u.country) ∧
      (country ≠ some u.country →
        createUserRequest (Identity.auth u) role country pw pw =
          CreateUserOutcome.permissionDenied) ∧
      (country = some u.country → role ≠ some Role.countryMember →
        createUserRequest (Identity.auth u) role country pw pw =
          CreateUserOutcome.validationFailed)) ∧
    (u.role = Role.superAdmin →
      (∀ c, country = some c → c ≠ "" →
        createUserRequest (Identity.auth u) role country pw pw =
          CreateUserOutcome.created (role.getD Role.countryMember) c) ∧
      ((country = none ∨ country = some "") →
        createUserRequest (Identity.auth u) role country pw pw =
          CreateUserOutcome.validationFailed)) ∧
    (u.role = Role.countryMember →
      createUserRequest (Identity.auth u) role country pw pw =
        CreateUserOutcome.permissionDenied) ∧
    createUserRequest Identity.anonymous role country pw pw =
      CreateUserOutcome.permissionDenied := by
  refine ⟨fun hca => ⟨fun hok => ?_, fun hcc => ?_, fun hsc hnr => ?_⟩,
    fun hsa => ⟨fun c hc hnb => ?_, fun hbad => ?_⟩, fun hcm => ?_, ?_⟩
  · obtain ⟨hr, hc, hnb⟩ := hok
    simp [createUserRequest, CanCreateUser_has_permission, country_field_valid,
      can_create_user_type, Identity.isAuthenticated, hca, hr, hc, hnb]
  · simp [createUserRequest, CanCreateUser_has_permission, hca, hcc]
  · by_cases hnb : u.country = "" <;>
      simp [createUserRequest, CanCreateUser_has_permission, country_field_valid,
        can_create_user_type, Identity.isAuthenticated, hca, hsc, hnr, hnb]
  · simp [createUserRequest, CanCreateUser_has_permission, country_field_valid,
      can_create_user_type, Identity.isAuthenticated, hsa, hc, hnb]
  · rcases hbad with hb | hb <;>
      simp [createUserRequest, CanCreateUser_has_permission, country_field_valid,
        hsa, hb]
  · simp [createUserRequest, CanCreateUser_has_permission, hcm]
  · simp [createUserRequest, CanCreateUser_has_permission]

/-- Witness for the amended C6: the USA country admin succeeds on
(COUNTRY_MEMBER, USA), gets a validation failure asking for a
COUNTRY_ADMIN in the USA, and the super admin gets a validation failure
when the required country key is missing. -/
theorem user_creation_policy_witness :
    adminUSA.role = Role.countryAdmin ∧
    createUserRequest (Identity.auth adminUSA) (some Role.countryMember)
      (some "USA") "pw12345" "pw12345" =
      CreateUserOutcome.created Role.countryMember "USA" ∧
    createUserRequest (Identity.auth adminUSA) (some Role.countryAdmin)
      (some "USA") "pw12345" "pw12345" = CreateUserOutcome.validationFailed ∧
    createUserRequest (Identity.auth rootAdmin) (some Role.countryAdmin)
      none "pw12345" "pw12345" = CreateUserOutcome.validationFailed :=
  ⟨rfl,
   ((user_creation_policy adminUSA (some Role.countryMember) (some "USA")
      "pw12345").1 rfl).1 ⟨rfl, rfl, by decide⟩,
   ((user_creation_policy adminUSA (some Role.countryAdmin) (some "USA")
      "pw12345").1 rfl).2.2 rfl (by simp),
   ((user_creation_policy rootAdmin (some Role.countryAdmin) none
      "pw12345").2.1 rfl).2 (Or.inl rfl)⟩
